import Mathlib

/-!
Shallow embedding of the WDPA quality-assurance checks (`wdpa/qa.py`).

Modelling conventions:
* A table cell is `Option _`: `none` models a missing value (`NaN`/`None`), and
  string cells carry `Option String`, numeric (area / year) cells `Option ℚ`.
* Float-valued intermediate computations (the area ratios, the marine
  proportion) are modelled by `RVal`, a rational number extended with the IEEE
  special values `nan`, `inf` and `ninf`; comparisons against `nan` are false,
  as in pandas/numpy.
* A DataFrame is a list of records (`WDPA`); each check is a function of the
  list.  `return_pid=True` and `return_pid=False` become separate `_pids` and
  `_bool` definitions with the same underlying computation, as in the source.
* The two derived columns that `area_invalid_marine` stores on the shared
  DataFrame are modelled by two extra `Option`-wrapped fields on `Record`
  (outer `none` = column absent).  Checks that can write to the DataFrame are
  also given a `_run` form returning the pair (result, DataFrame afterwards).
* `invalid_country_codes` applies a `str.split` over every cell of the column
  and hence raises on a missing value; it is embedded with an `Option` result,
  `none` modelling the raised error.
-/

/-- Value of a float-typed computation: a rational, or one of the IEEE special
values produced by pandas arithmetic (`nan` from `0/0` or missing operands,
`inf`/`ninf` from division of a nonzero value by zero). -/
inductive RVal where
  | nan
  | inf
  | ninf
  | val (q : ℚ)
deriving DecidableEq

/-- One row of the WDPA attribute table (polygon schema, `INPUT_FIELDS_POLY`),
plus the two scratch columns written by `area_invalid_marine`
(`marine_GIS_proportion`, `marine_GIS_value`); an outer `none` on a scratch
field means the column is absent from the DataFrame. -/
structure Record where
  wdpaid : Option ℚ := none
  wdpa_pid : Option String := none
  pa_def : Option String := none
  name : Option String := none
  orig_name : Option String := none
  desig : Option String := none
  desig_eng : Option String := none
  desig_type : Option String := none
  iucn_cat : Option String := none
  int_crit : Option String := none
  marine : Option String := none
  rep_m_area : Option ℚ := none
  gis_m_area : Option ℚ := none
  rep_area : Option ℚ := none
  gis_area : Option ℚ := none
  no_take : Option String := none
  no_tk_area : Option ℚ := none
  status : Option String := none
  status_yr : Option ℚ := none
  gov_type : Option String := none
  own_type : Option String := none
  mang_auth : Option String := none
  mang_plan : Option String := none
  verif : Option String := none
  metadataid : Option ℚ := none
  sub_loc : Option String := none
  parent_iso3 : Option String := none
  iso3 : Option String := none
  marine_GIS_proportion : Option RVal := none
  marine_GIS_value : Option (Option String) := none
deriving DecidableEq

/-- The WDPA attribute table: an ordered collection of records. -/
abbrev WDPA := List Record

/-- Addition of two numeric cells; any missing operand yields `NaN` (pandas
`NaN + x = NaN`). -/
def optionAdd (a b : Option ℚ) : Option ℚ :=
  match a, b with
  | some x, some y => some (x + y)
  | _, _ => none

/-- Division of two numeric cells with pandas semantics: missing operand gives
`NaN`; division of a positive (negative) value by zero gives `inf` (`ninf`);
`0 / 0` gives `NaN`. -/
def floatDiv (num den : Option ℚ) : RVal :=
  match num, den with
  | some n, some d =>
      if d ≠ 0 then RVal.val (n / d)
      else if 0 < n then RVal.inf
      else if n < 0 then RVal.ninf
      else RVal.nan
  | _, _ => RVal.nan

/-- Float comparison `r ≤ c` against a finite constant (`nan` compares false). -/
def RVal.leC (r : RVal) (c : ℚ) : Bool :=
  match r with
  | RVal.val q => q ≤ c
  | RVal.ninf => true
  | _ => false

/-- Float comparison `r < c` against a finite constant (`nan` compares false). -/
def RVal.ltC (r : RVal) (c : ℚ) : Bool :=
  match r with
  | RVal.val q => q < c
  | RVal.ninf => true
  | _ => false

/-- Float comparison `r ≥ c` against a finite constant (`nan` compares false). -/
def RVal.geC (r : RVal) (c : ℚ) : Bool :=
  match r with
  | RVal.val q => c ≤ q
  | RVal.inf => true
  | _ => false

/-- Float comparison `r > c` against a finite constant (`nan` compares false). -/
def RVal.gtC (r : RVal) (c : ℚ) : Bool :=
  match r with
  | RVal.val q => c < q
  | RVal.inf => true
  | _ => false

/-- Elementwise `!=` of two string cells as evaluated by pandas: a comparison
involving at least one missing value yields `True`. -/
def pandasNeq (a b : Option String) : Bool :=
  match a, b with
  | some x, some y => x != y
  | _, _ => true

/-- The `WDPA_PID` column of the table. -/
def wdpaPids (df : WDPA) : List (Option String) :=
  df.map (fun r => r.wdpa_pid)

/-! ### 2.1 `duplicate_wdpa_pid` -/

/-- The subsequence of the column selected by `ids.duplicated()`: every
occurrence of a value after its first, walking the column left to right with
`seen` accumulating the values already passed (pandas `duplicated` counts
missing values as equal to each other). -/
def duplicatedOccurrences (seen : List (Option String)) :
    List (Option String) → List (Option String)
  | [] => []
  | v :: rest =>
      if seen.contains v then v :: duplicatedOccurrences (v :: seen) rest
      else duplicatedOccurrences (v :: seen) rest

/-- `duplicate_wdpa_pid(wdpa_df, return_pid=True)`:
`ids[ids.duplicated()].unique()` — the occurrences past the first of each
value, deduplicated. -/
def duplicate_wdpa_pid_pids (df : WDPA) : List (Option String) :=
  (duplicatedOccurrences [] (wdpaPids df)).dedup

/-- `duplicate_wdpa_pid(wdpa_df)`: boolean mode, computed as
`wdpa_df['WDPA_PID'].nunique() != wdpa_df.index.size`; `nunique` counts the
distinct non-missing values only. -/
def duplicate_wdpa_pid_bool (df : WDPA) : Bool :=
  ((wdpaPids df).filterMap id).dedup.length ≠ df.length

/-! ### 2.2 `area_invalid_marine` -/

/-- Lower threshold of the coastal band (`coast_min = 0.1`). -/
def coast_min : ℚ := 1 / 10

/-- Upper threshold of the coastal band (`coast_max = 0.9`). -/
def coast_max : ℚ := 9 / 10

/-- `assign_marine_gis_value` applied to one row's stored
`marine_GIS_proportion`: the if/elif chain of the source, falling through to
`None` (a `nan` proportion satisfies no branch). -/
def assign_marine_gis_value (p : RVal) : Option String :=
  if p.leC coast_min then some "0"
  else if p.gtC coast_min && p.ltC coast_max then some "1"
  else if p.geC coast_max then some "2"
  else none

/-- First phase of `area_invalid_marine`: write the two derived columns
`marine_GIS_proportion = GIS_M_AREA / GIS_AREA` and
`marine_GIS_value = assign_marine_gis_value(...)` onto the DataFrame. -/
def area_invalid_marine_addcols (df : WDPA) : WDPA :=
  (df.map (fun r =>
      { r with marine_GIS_proportion := some (floatDiv r.gis_m_area r.gis_area) })).map
    (fun r =>
      { r with
          marine_GIS_value :=
            some (assign_marine_gis_value (r.marine_GIS_proportion.getD RVal.nan)) })

/-- `area_invalid_marine(wdpa_df, return_pid=True)`: `WDPA_PID`s of rows whose
computed `marine_GIS_value` differs (pandas `!=`) from the declared `MARINE`. -/
def area_invalid_marine_pids (df : WDPA) : List (Option String) :=
  (((area_invalid_marine_addcols df).filter
      (fun r => pandasNeq (r.marine_GIS_value.getD none) r.marine)).map
    (fun r => r.wdpa_pid))

/-- `area_invalid_marine(wdpa_df)`: boolean mode (`len(invalid_wdpa_pid) > 0`). -/
def area_invalid_marine_bool (df : WDPA) : Bool :=
  decide (0 < (area_invalid_marine_pids df).length)

/-- `area_invalid_marine` together with the DataFrame as it stands after the
call: the source assigns the two derived columns onto the shared DataFrame. -/
def area_invalid_marine_run (df : WDPA) : List (Option String) × WDPA :=
  (area_invalid_marine_pids df, area_invalid_marine_addcols df)

/-- Erase the two scratch columns, keeping the 28 schema fields. -/
def Record.dropScratch (r : Record) : Record :=
  { r with marine_GIS_proportion := none, marine_GIS_value := none }

/-! ### 2.3 `area_invalid_too_large_gis` -/

/-- Maximum allowed absolute difference between the two area fields, in km²
(`MAX_ALLOWED_SIZE_DIFF_KM2 = 50`). -/
def MAX_ALLOWED_SIZE_DIFF_KM2 : ℚ := 50

/-- The ratio `calc = (REP_AREA + GIS_AREA) / REP_AREA` of one row. -/
def too_large_gis_ratio (r : Record) : RVal :=
  floatDiv (optionAdd r.rep_area r.gis_area) r.rep_area

/-- The outlier-excluded ratio population `relative_size_stats`: ratios with
`calc > 100` or `calc < 0` are replaced by `NaN` (`np.select`), and `NaN`
entries (including `inf`, `ninf` and rows whose ratio was already `NaN`) are
then skipped by `mean()`/`std()`; what remains are the finite ratios in
`[0, 100]`. -/
def statsSample (df : WDPA) : List ℚ :=
  (df.map too_large_gis_ratio).filterMap (fun v =>
    match v with
    | RVal.val q => if q > 100 || q < 0 then none else some q
    | _ => none)

/-- pandas `Series.mean()` of a list of retained ratio values. -/
def sampleMean (l : List ℚ) : ℚ :=
  l.sum / l.length

/-- pandas `Series.std()` squared: the sample variance with `ddof = 1`. -/
def sampleVar (l : List ℚ) : ℚ :=
  (l.map (fun x => (x - sampleMean l) ^ 2)).sum / ((l.length : ℚ) - 1)

/-- The acceptance threshold `max_gis = mean + 2*std`, represented by the pair
(mean, sample variance) of the retained ratios; `none` models the `NaN`
threshold arising when fewer than two ratios remain (`mean()` of an empty
Series and `std()` of a singleton are `NaN`). -/
def maxRatioStats (df : WDPA) : Option (ℚ × ℚ) :=
  let l := statsSample df
  if 2 ≤ l.length then some (sampleMean l, sampleVar l) else none

/-- The comparison `relative_size > max_gis` on one row: false against a `NaN`
threshold or a `NaN`/`-inf` ratio, true for an `inf` ratio against a finite
threshold; for a finite ratio `q` it decides `q > mean + 2*sqrt(var)` by the
equivalent square-free test `q > mean and (q - mean)^2 > 4*var`
(see `exceedsMax_val_iff_sqrt`). -/
def exceedsMax (r : RVal) (t : Option (ℚ × ℚ)) : Bool :=
  match t, r with
  | none, _ => false
  | some _, RVal.nan => false
  | some _, RVal.ninf => false
  | some _, RVal.inf => true
  | some (m, v), RVal.val q => m < q && 4 * v < (q - m) ^ 2

/-- The guard `abs(A - B) > tol` on two numeric cells; false when either value
is missing (a comparison against `NaN`). -/
def absDiffGt (a b : Option ℚ) (tol : ℚ) : Bool :=
  match a, b with
  | some x, some y => tol < |x - y|
  | _, _ => false

/-- `area_invalid_too_large_gis(wdpa_df, return_pid=True)`: `WDPA_PID`s of rows
with `relative_size > max_gis` and `abs(GIS_AREA - REP_AREA) > 50`. -/
def area_invalid_too_large_gis_pids (df : WDPA) : List (Option String) :=
  ((df.filter (fun r =>
      exceedsMax (too_large_gis_ratio r) (maxRatioStats df) &&
        absDiffGt r.gis_area r.rep_area MAX_ALLOWED_SIZE_DIFF_KM2)).map
    (fun r => r.wdpa_pid))

/-- `area_invalid_too_large_gis(wdpa_df)`: boolean mode
(`len(invalid_wdpa_pid) > 0`). -/
def area_invalid_too_large_gis_bool (df : WDPA) : Bool :=
  decide (0 < (area_invalid_too_large_gis_pids df).length)

/-! ### 4. `invalid_value_in_field` -/

/-- `invalid_value_in_field(wdpa_df, field, field_allowed_values,
condition_field, condition_crit, return_pid)`, the rows kept: a field is a
projection of the record, `condition_field = none` models the empty-string
argument, and cell membership `isin` matches a missing cell only against a
missing entry of the list.  The conditional branch is taken exactly when both a
condition field and a nonempty criterion list are supplied. -/
def invalid_value_in_field_recs (df : WDPA) (field : Record → Option String)
    (field_allowed_values : List (Option String))
    (condition_field : Option (Record → Option String))
    (condition_crit : List (Option String)) : List Record :=
  match condition_field, condition_crit with
  | some cf, c :: cs =>
      df.filter (fun r =>
        !field_allowed_values.contains (field r) && (c :: cs).contains (cf r))
  | _, _ =>
      df.filter (fun r => !field_allowed_values.contains (field r))

/-- `invalid_value_in_field(..., return_pid=True)`: the `WDPA_PID`s of the
offending rows. -/
def invalid_value_in_field_pids (df : WDPA) (field : Record → Option String)
    (field_allowed_values : List (Option String))
    (condition_field : Option (Record → Option String))
    (condition_crit : List (Option String)) : List (Option String) :=
  (invalid_value_in_field_recs df field field_allowed_values condition_field
      condition_crit).map (fun r => r.wdpa_pid)

/-- `invalid_value_in_field(...)`: boolean mode (`len(invalid_wdpa_pid) > 0`). -/
def invalid_value_in_field_bool (df : WDPA) (field : Record → Option String)
    (field_allowed_values : List (Option String))
    (condition_field : Option (Record → Option String))
    (condition_crit : List (Option String)) : Bool :=
  decide (0 < (invalid_value_in_field_pids df field field_allowed_values
      condition_field condition_crit).length)

/-! ### 4.20 `invalid_country_codes` -/

/-- Python `str.split(';')` on the character list of a cell: one split at
every `';'`, with leading, trailing or adjacent separators producing empty
components. -/
def splitSemicolon : List Char → List (List Char)
  | [] => [[]]
  | c :: rest =>
      if c = ';' then [] :: splitSemicolon rest
      else
        match splitSemicolon rest with
        | h :: t => (c :: h) :: t
        | [] => [[c]]

/-- `_correct_iso3`: every `;`-separated component of the cell's string must
belong to the reference code list. -/
def correct_iso3 (ref : List String) (s : String) : Bool :=
  (splitSemicolon s.toList).all (fun comp => ref.contains (String.mk comp))

/-- `invalid_country_codes(wdpa_df, field, return_pid=True)`: the column is run
through `field.split(';')` row by row, so a missing cell raises
(`AttributeError` on `float.split`); the raised error is modelled by `none`. -/
def invalid_country_codes_pids (df : WDPA) (field : Record → Option String)
    (ref : List String) : Option (List (Option String)) :=
  if df.all (fun r => (field r).isSome) then
    some ((df.filter (fun r =>
        match field r with
        | some s => !correct_iso3 ref s
        | none => true)).map (fun r => r.wdpa_pid))
  else none

/-- `invalid_country_codes(wdpa_df, field)`: boolean mode, raising in the same
cases as the pid mode. -/
def invalid_country_codes_bool (df : WDPA) (field : Record → Option String)
    (ref : List String) : Option Bool :=
  (invalid_country_codes_pids df field ref).map (fun l => decide (0 < l.length))

/-! ### 6. `forbidden_character` -/

/-- The fixed list of forbidden characters. -/
def forbidden_characters : List Char :=
  ['<', '>', '?', '*', '\r', '\n']

/-- Containment of any forbidden character (`str.contains` with the
alternation regex over the escaped characters; `case=False` is vacuous for
these characters). -/
def containsForbidden (s : String) : Bool :=
  s.toList.any (fun c => forbidden_characters.contains c)

/-- Whether `dropna()` removes the row: a missing value in any column,
including a `NaN` in a present scratch column. -/
def Record.hasNullCell (r : Record) : Bool :=
  r.wdpaid.isNone || r.wdpa_pid.isNone || r.pa_def.isNone || r.name.isNone ||
  r.orig_name.isNone || r.desig.isNone || r.desig_eng.isNone ||
  r.desig_type.isNone || r.iucn_cat.isNone || r.int_crit.isNone ||
  r.marine.isNone || r.rep_m_area.isNone || r.gis_m_area.isNone ||
  r.rep_area.isNone || r.gis_area.isNone || r.no_take.isNone ||
  r.no_tk_area.isNone || r.status.isNone || r.status_yr.isNone ||
  r.gov_type.isNone || r.own_type.isNone || r.mang_auth.isNone ||
  r.mang_plan.isNone || r.verif.isNone || r.metadataid.isNone ||
  r.sub_loc.isNone || r.parent_iso3.isNone || r.iso3.isNone ||
  (match r.marine_GIS_proportion with
   | some RVal.nan => true
   | _ => false) ||
  (match r.marine_GIS_value with
   | some none => true
   | _ => false)

/-- `forbidden_character(wdpa_df, check_field, return_pid=True)`: the source
first rebinds `wdpa_df = wdpa_df.dropna()` (dropping every row with a missing
value in any column) and then keeps rows whose check-field value matches the
forbidden-character pattern. -/
def forbidden_character_pids (df : WDPA) (check_field : Record → Option String) :
    List (Option String) :=
  (((df.filter (fun r => !r.hasNullCell)).filter (fun r =>
      match check_field r with
      | some s => containsForbidden s
      | none => false)).map (fun r => r.wdpa_pid))

/-- `forbidden_character(wdpa_df, check_field)`: boolean mode
(`len(invalid_wdpa_pid) > 0`). -/
def forbidden_character_bool (df : WDPA) (check_field : Record → Option String) :
    Bool :=
  decide (0 < (forbidden_character_pids df check_field).length)

/-! ### Run forms: result paired with the DataFrame after the call.
Only `area_invalid_marine` assigns to the shared DataFrame; every other check
reads it (a local rebinding such as the `dropna` in `forbidden_character` is
not visible to the caller). -/

/-- `duplicate_wdpa_pid` leaves the DataFrame untouched. -/
def duplicate_wdpa_pid_run (df : WDPA) : List (Option String) × WDPA :=
  (duplicate_wdpa_pid_pids df, df)

/-- `area_invalid_too_large_gis` leaves the DataFrame untouched. -/
def area_invalid_too_large_gis_run (df : WDPA) : List (Option String) × WDPA :=
  (area_invalid_too_large_gis_pids df, df)

/-- `invalid_value_in_field` leaves the DataFrame untouched. -/
def invalid_value_in_field_run (df : WDPA) (field : Record → Option String)
    (field_allowed_values : List (Option String))
    (condition_field : Option (Record → Option String))
    (condition_crit : List (Option String)) : List (Option String) × WDPA :=
  (invalid_value_in_field_pids df field field_allowed_values condition_field
      condition_crit, df)

/-- `invalid_country_codes` leaves the DataFrame untouched. -/
def invalid_country_codes_run (df : WDPA) (field : Record → Option String)
    (ref : List String) : Option (List (Option String)) × WDPA :=
  (invalid_country_codes_pids df field ref, df)

/-- `forbidden_character` leaves the DataFrame untouched. -/
def forbidden_character_run (df : WDPA) (check_field : Record → Option String) :
    List (Option String) × WDPA :=
  (forbidden_character_pids df check_field, df)

/-! ### Concrete tables used to evaluate the checks on explicit inputs. -/

/-- A row with `REP_AREA = GIS_AREA = 2`. -/
def recEq2 : Record :=
  { wdpa_pid := some "e1", rep_area := some 2, gis_area := some 2 }

/-- A second row with `REP_AREA = GIS_AREA = 2`. -/
def recEq2b : Record :=
  { wdpa_pid := some "e2", rep_area := some 2, gis_area := some 2 }

/-- A two-row table in which every row has `REP_AREA = GIS_AREA = 2 > 0`. -/
def dfAllEqual : WDPA := [recEq2, recEq2b]

/-- A row whose `WDPA_PID` is missing (and otherwise arbitrary). -/
def recNullPid : Record := { name := some "site" }

/-- A one-row table whose single `WDPA_PID` is missing. -/
def dfNullPid : WDPA := [recNullPid]

/-- A two-row table with a duplicated, non-missing `WDPA_PID`. -/
def dfDupPid : WDPA :=
  [{ wdpa_pid := some "d" }, { wdpa_pid := some "d" }]

/-- A reference country-code list (ISO 3166-1 alpha-3 codes plus the `ABNJ`
sentinel appended by the loader). -/
def refCodes : List String := ["USA", "FRA", "NLD", "ABNJ"]

/-- A row whose `ISO3` is missing. -/
def recNullIso3 : Record := { wdpa_pid := some "n3", iso3 := none }

/-- A one-row table whose single `ISO3` value is missing. -/
def dfNullIso3 : WDPA := [recNullIso3]

/-- A one-row table with every `ISO3` present. -/
def dfIso3Ok : WDPA := [{ wdpa_pid := some "k3", iso3 := some "USA" }]

/-- An arbitrary one-row table for exhibiting the marine check's writes. -/
def dfPlain : WDPA := [{ wdpa_pid := some "p4" }]

/-- A row with a zero ratio denominator: `REP_AREA = 0`, `GIS_AREA = 100`. -/
def recZeroDen : Record :=
  { wdpa_pid := some "z5", rep_area := some 0, gis_area := some 100 }

/-- A one-row table holding only the zero-denominator row: the retained ratio
sample is empty, so the acceptance threshold is `NaN`. -/
def dfZeroDenAlone : WDPA := [recZeroDen]

/-- The zero-denominator row embedded in a table with two well-behaved rows, so
that the acceptance threshold is defined. -/
def dfZeroDenStats : WDPA := [recEq2, recEq2b, recZeroDen]

/-- A row whose `NAME` holds a forbidden character while another column
(`ISO3`, among others) is missing. -/
def recAngleName : Record := { wdpa_pid := some "c6", name := some "a<b" }

/-- A one-row table holding only `recAngleName`. -/
def dfAngleName : WDPA := [recAngleName]

/-- A row with every schema column present and a `*` in its `NAME`. -/
def recFull : Record :=
  { wdpaid := some 1, wdpa_pid := some "w6", pa_def := some "1",
    name := some "bad*name", orig_name := some "orig", desig := some "des",
    desig_eng := some "deseng", desig_type := some "National",
    iucn_cat := some "II", int_crit := some "Not Applicable",
    marine := some "0", rep_m_area := some 0, gis_m_area := some 0,
    rep_area := some 1, gis_area := some 1, no_take := some "None",
    no_tk_area := some 0, status := some "Designated", status_yr := some 2000,
    gov_type := some "gov", own_type := some "own", mang_auth := some "auth",
    mang_plan := some "plan", verif := some "State Verified",
    metadataid := some 7, sub_loc := some "sub", parent_iso3 := some "USA",
    iso3 := some "USA" }

/-- A one-row table holding only the fully populated row. -/
def dfFull : WDPA := [recFull]

/-- A fully marine row (`GIS_M_AREA = GIS_AREA = 1`) declared terrestrial. -/
def recMarineMismatch : Record :=
  { wdpa_pid := some "w7", gis_m_area := some 1, gis_area := some 1,
    marine := some "0" }

/-- A one-row table holding only the mismatched marine row. -/
def dfMarineMismatch : WDPA := [recMarineMismatch]

/-- A row used for the membership-rule instances. -/
def recDesigX : Record := { wdpa_pid := some "w8", desig_type := some "X" }

/-- A one-row table holding only `recDesigX`. -/
def dfDesigX : WDPA := [recDesigX]

/-- A row with `GIS_M_AREA = GIS_AREA = 0` and a missing declared `MARINE`. -/
def recZeroAreas : Record :=
  { wdpa_pid := some "w9", gis_m_area := some 0, gis_area := some 0,
    marine := none }

/-- A one-row table holding only the zero-areas row. -/
def dfZeroAreas : WDPA := [recZeroAreas]

/-- A row whose `ISO3` has a trailing separator, i.e. an empty component. -/
def recTrailingSep : Record :=
  { wdpa_pid := some "w10", iso3 := some "USA;" }

/-- A one-row table holding only the trailing-separator row. -/
def dfTrailingSep : WDPA := [recTrailingSep]

/-! ## Theorems -/

/-- Membership in a filtered-and-projected `WDPA_PID` list, unfolded. -/
theorem mem_filterPids {df : WDPA} {p : Record → Bool} {pid : Option String} :
    (pid ∈ (df.filter p).map (fun r => r.wdpa_pid)) ↔
      ∃ r, r ∈ df ∧ p r = true ∧ r.wdpa_pid = pid := by
  simp only [List.mem_map, List.mem_filter]
  constructor
  · rintro ⟨r, ⟨hr, hp⟩, rfl⟩
    exact ⟨r, hr, hp, rfl⟩
  · rintro ⟨r, hr, hp, rfl⟩
    exact ⟨r, ⟨hr, hp⟩, rfl⟩

/-- Membership in the offending list of `area_invalid_marine`: a row is
reported exactly when the derived band and the declared `MARINE` value differ
under the pandas comparison. -/
theorem mem_area_invalid_marine (df : WDPA) (pid : Option String) :
    (pid ∈ area_invalid_marine_pids df) ↔
      ∃ r, r ∈ df ∧
        pandasNeq (assign_marine_gis_value (floatDiv r.gis_m_area r.gis_area))
          r.marine = true ∧
        r.wdpa_pid = pid := by
  simp only [area_invalid_marine_pids, area_invalid_marine_addcols,
    List.map_map, List.mem_map, List.mem_filter, Function.comp]
  constructor
  · rintro ⟨r, ⟨⟨s, hs, rfl⟩, hp⟩, rfl⟩
    exact ⟨s, hs, by simpa using hp, rfl⟩
  · rintro ⟨r, hr, hp, rfl⟩
    exact ⟨_, ⟨⟨r, hr, rfl⟩, by simpa using hp⟩, rfl⟩

/-- C7: the marine-classification rule derives band `'0'` for a finite ratio
`≤ 0.1`, band `'1'` for `0.1 < ratio < 0.9`, band `'2'` for `ratio ≥ 0.9`
(boundaries `0.1` and `0.9` falling in bands 0 and 2), and flags exactly the
records whose derived band differs from the declared `MARINE` value. -/
theorem c7_marine_bands :
    (∀ q : ℚ, q ≤ 1 / 10 → assign_marine_gis_value (RVal.val q) = some "0") ∧
    (∀ q : ℚ, 1 / 10 < q → q < 9 / 10 →
      assign_marine_gis_value (RVal.val q) = some "1") ∧
    (∀ q : ℚ, 9 / 10 ≤ q → assign_marine_gis_value (RVal.val q) = some "2") ∧
    (∀ (df : WDPA) (pid : Option String),
      (pid ∈ area_invalid_marine_pids df) ↔
        ∃ r, r ∈ df ∧
          pandasNeq (assign_marine_gis_value (floatDiv r.gis_m_area r.gis_area))
            r.marine = true ∧
          r.wdpa_pid = pid) := by
  refine ⟨fun q hq => ?_, fun q hq1 hq2 => ?_, fun q hq => ?_,
    fun df pid => mem_area_invalid_marine df pid⟩
  · have h0 : (RVal.val q).leC coast_min = true := by
      simp only [RVal.leC, coast_min, decide_eq_true_eq]
      exact hq
    simp [assign_marine_gis_value, h0]
  · have h0 : (RVal.val q).leC coast_min = false := by
      simp only [RVal.leC, coast_min]
      exact decide_eq_false (not_le.mpr hq1)
    have h1 : (RVal.val q).gtC coast_min = true := by
      simp only [RVal.gtC, coast_min, decide_eq_true_eq]
      exact hq1
    have h2 : (RVal.val q).ltC coast_max = true := by
      simp only [RVal.ltC, coast_max, decide_eq_true_eq]
      exact hq2
    simp [assign_marine_gis_value, h0, h1, h2]
  · have h0 : (RVal.val q).leC coast_min = false := by
      simp only [RVal.leC, coast_min]
      exact decide_eq_false (by intro h; linarith)
    have h2 : (RVal.val q).ltC coast_max = false := by
      simp only [RVal.ltC, coast_max]
      exact decide_eq_false (not_lt.mpr hq)
    have h3 : (RVal.val q).geC coast_max = true := by
      simp only [RVal.geC, coast_max, decide_eq_true_eq]
      exact hq
    simp [assign_marine_gis_value, h0, h2, h3]

/-- Witness for C7 at the spec's three ratio points, and a flagged mismatch on
a concrete table. -/
theorem c7_witness :
    assign_marine_gis_value (RVal.val (1 / 10)) = some "0" ∧
    assign_marine_gis_value (RVal.val (10001 / 100000)) = some "1" ∧
    assign_marine_gis_value (RVal.val (9 / 10)) = some "2" ∧
    some "w7" ∈ area_invalid_marine_pids dfMarineMismatch := by
  refine ⟨c7_marine_bands.1 (1 / 10) le_rfl,
    c7_marine_bands.2.1 (10001 / 100000) (by norm_num) (by norm_num),
    c7_marine_bands.2.2.1 (9 / 10) le_rfl,
    (c7_marine_bands.2.2.2 dfMarineMismatch (some "w7")).mpr ?_⟩
  have hdiv : floatDiv recMarineMismatch.gis_m_area recMarineMismatch.gis_area =
      RVal.val 1 := by
    norm_num [floatDiv, recMarineMismatch]
  refine ⟨recMarineMismatch, by simp [dfMarineMismatch], ?_, rfl⟩
  rw [hdiv, c7_marine_bands.2.2.1 1 (by norm_num)]
  rfl

/-- C9: a record whose marine proportion is undefined (`GIS_M_AREA` and
`GIS_AREA` both zero, or either missing) gets a `NaN` proportion and hence a
missing derived band, and is always flagged by `area_invalid_marine`,
whatever its declared `MARINE` value. -/
theorem c9_undefined_band_always_flagged (df : WDPA) (r : Record)
    (hundef : (r.gis_m_area = some 0 ∧ r.gis_area = some 0) ∨
      r.gis_m_area = none ∨ r.gis_area = none)
    (hmem : r ∈ df) :
    floatDiv r.gis_m_area r.gis_area = RVal.nan ∧
    assign_marine_gis_value (floatDiv r.gis_m_area r.gis_area) = none ∧
    r.wdpa_pid ∈ area_invalid_marine_pids df := by
  have hnan : floatDiv r.gis_m_area r.gis_area = RVal.nan := by
    rcases hundef with ⟨h1, h2⟩ | h | h
    · rw [h1, h2]; rfl
    · rw [h]; rfl
    · rw [h]
      cases r.gis_m_area <;> rfl
  refine ⟨hnan, by rw [hnan]; rfl, ?_⟩
  exact (mem_area_invalid_marine df r.wdpa_pid).mpr
    ⟨r, hmem, by rw [hnan]; cases r.marine <;> rfl, rfl⟩

/-- Witness for C9: the zero-areas row of `dfZeroAreas` is flagged even though
its declared `MARINE` is itself missing. -/
theorem c9_witness : some "w9" ∈ area_invalid_marine_pids dfZeroAreas :=
  (c9_undefined_band_always_flagged dfZeroAreas recZeroAreas
    (Or.inl ⟨rfl, rfl⟩) (by simp [dfZeroAreas])).2.2

/-- The sample variance is nonnegative. -/
theorem sampleVar_nonneg (l : List ℚ) : 0 ≤ sampleVar l := by
  cases l with
  | nil => norm_num [sampleVar]
  | cons a t =>
      apply div_nonneg
      · apply List.sum_nonneg
        intro x hx
        obtain ⟨y, _, rfl⟩ := List.mem_map.mp hx
        positivity
      · have h1 : (1 : ℚ) ≤ ((a :: t).length : ℚ) := by
          exact_mod_cast Nat.succ_le_succ (Nat.zero_le t.length)
        linarith

/-- The square-free test inside `exceedsMax` is exactly the real comparison
`q > mean + 2*std` for a nonnegative variance, so the embedding of
`relative_size > max_gis` matches the source's `mean() + 2*std()` threshold. -/
theorem exceedsMax_val_iff_sqrt (q m v : ℚ) (hv : 0 ≤ v) :
    exceedsMax (RVal.val q) (some (m, v)) = true ↔
      (m : ℝ) + 2 * Real.sqrt (v : ℝ) < (q : ℝ) := by
  have hv' : (0 : ℝ) ≤ (v : ℝ) := by exact_mod_cast hv
  have hsq : Real.sqrt (4 * (v : ℝ)) = 2 * Real.sqrt (v : ℝ) := by
    rw [show (4 : ℝ) * (v : ℝ) = 2 ^ 2 * (v : ℝ) by ring,
      Real.sqrt_mul (by positivity), Real.sqrt_sq (by norm_num)]
  simp only [exceedsMax, Bool.and_eq_true, decide_eq_true_eq]
  constructor
  · rintro ⟨h1, h2⟩
    have h1r : (m : ℝ) < (q : ℝ) := by exact_mod_cast h1
    have h2r : 4 * (v : ℝ) < ((q : ℝ) - (m : ℝ)) ^ 2 := by
      exact_mod_cast h2
    have hlt : Real.sqrt (4 * (v : ℝ)) < (q : ℝ) - (m : ℝ) :=
      (Real.sqrt_lt' (by linarith)).mpr h2r
    rw [hsq] at hlt
    linarith
  · intro h
    have h0 : 0 ≤ 2 * Real.sqrt (v : ℝ) := by positivity
    have h1r : (m : ℝ) < (q : ℝ) := by linarith
    have hlt : Real.sqrt (4 * (v : ℝ)) < (q : ℝ) - (m : ℝ) := by
      rw [hsq]; linarith
    have h2r : 4 * (v : ℝ) < ((q : ℝ) - (m : ℝ)) ^ 2 :=
      (Real.sqrt_lt' (by linarith)).mp hlt
    refine ⟨by exact_mod_cast h1r, ?_⟩
    have : ((4 * v : ℚ) : ℝ) < (((q - m) ^ 2 : ℚ) : ℝ) := by push_cast; linarith
    exact_mod_cast this

/-- C1: the statistical area-plausibility check flags exactly the records
whose ratio `(A + B) / A`, taken over the full population, exceeds the
`mean + 2*std` threshold of the outlier-excluded ratio distribution while
`|A - B| > 50`; and on any table where every record has `A = B > 0` the
offending set is empty. -/
theorem c1_too_large_gis (df : WDPA) :
    (∀ pid : Option String,
      (pid ∈ area_invalid_too_large_gis_pids df) ↔
        ∃ r, r ∈ df ∧
          exceedsMax (too_large_gis_ratio r) (maxRatioStats df) = true ∧
          absDiffGt r.gis_area r.rep_area MAX_ALLOWED_SIZE_DIFF_KM2 = true ∧
          r.wdpa_pid = pid) ∧
    ((∀ r ∈ df, ∃ v : ℚ, 0 < v ∧ r.rep_area = some v ∧ r.gis_area = some v) →
      area_invalid_too_large_gis_pids df = []) := by
  constructor
  · intro pid
    rw [area_invalid_too_large_gis_pids, mem_filterPids]
    simp only [Bool.and_eq_true]
    constructor
    · rintro ⟨r, hr, ⟨h1, h2⟩, rfl⟩
      exact ⟨r, hr, h1, h2, rfl⟩
    · rintro ⟨r, hr, h1, h2, rfl⟩
      exact ⟨r, hr, ⟨h1, h2⟩, rfl⟩
  · intro hall
    rw [area_invalid_too_large_gis_pids, List.map_eq_nil_iff]
    rw [List.filter_eq_nil_iff]
    intro r hr
    obtain ⟨v, _, hrep, hgis⟩ := hall r hr
    have habs : absDiffGt r.gis_area r.rep_area MAX_ALLOWED_SIZE_DIFF_KM2 =
        false := by
      rw [hrep, hgis]
      simp only [absDiffGt, sub_self, abs_zero]
      exact decide_eq_false (by norm_num [MAX_ALLOWED_SIZE_DIFF_KM2])
    simp [habs]

/-- Witness for C1: on the all-equal-areas table the offending set is empty. -/
theorem c1_witness : area_invalid_too_large_gis_pids dfAllEqual = [] := by
  refine (c1_too_large_gis dfAllEqual).2 ?_
  intro r hr
  have hcases : r = recEq2 ∨ r = recEq2b := by simpa [dfAllEqual] using hr
  rcases hcases with rfl | rfl <;> exact ⟨2, by norm_num, rfl, rfl⟩

/-- The retained ratio sample distributes over appended tables. -/
theorem statsSample_append (l₁ l₂ : List Record) :
    statsSample (l₁ ++ l₂) = statsSample l₁ ++ statsSample l₂ := by
  simp [statsSample, List.filterMap_append]

/-- A record with an `inf` ratio contributes nothing to the retained ratio
sample. -/
theorem statsSample_cons_inf (r : Record) (l : List Record)
    (h : too_large_gis_ratio r = RVal.inf) :
    statsSample (r :: l) = statsSample l := by
  simp [statsSample, h]

/-- C5 (amended): a record with a zero ratio denominator (`REP_AREA = 0`,
`GIS_AREA = b` present) has ratio `+inf` and is excluded from the
distribution statistics; when additionally `b > 50` (so `|A - B| > 50` with a
positive ratio numerator) and the retained sample holds at least two values
(the threshold is not `NaN`), the record is flagged. -/
theorem c5_zero_denominator_guard (df : WDPA) (l₁ l₂ : List Record)
    (r : Record) (b : ℚ) (hdf : df = l₁ ++ r :: l₂)
    (hrep : r.rep_area = some 0) (hgis : r.gis_area = some b) (hb : 50 < b)
    (hlen : 2 ≤ (statsSample df).length) :
    too_large_gis_ratio r = RVal.inf ∧
    statsSample df = statsSample (l₁ ++ l₂) ∧
    r.wdpa_pid ∈ area_invalid_too_large_gis_pids df := by
  have hratio : too_large_gis_ratio r = RVal.inf := by
    simp only [too_large_gis_ratio, hrep, hgis, optionAdd, floatDiv, zero_add]
    rw [if_neg (by norm_num), if_pos (by linarith)]
  have hsplit : statsSample df = statsSample (l₁ ++ l₂) := by
    rw [hdf, statsSample_append, statsSample_cons_inf r l₂ hratio,
      statsSample_append]
  have hmax : maxRatioStats df =
      some (sampleMean (statsSample df), sampleVar (statsSample df)) := by
    simp only [maxRatioStats]
    rw [if_pos hlen]
  have habs : absDiffGt r.gis_area r.rep_area MAX_ALLOWED_SIZE_DIFF_KM2 =
      true := by
    rw [hgis, hrep]
    simp only [absDiffGt, sub_zero, MAX_ALLOWED_SIZE_DIFF_KM2,
      decide_eq_true_eq]
    rw [abs_of_pos (by linarith)]
    exact hb
  refine ⟨hratio, hsplit, ?_⟩
  rw [area_invalid_too_large_gis_pids, mem_filterPids]
  refine ⟨r, by rw [hdf]; exact List.mem_append_right _ (List.mem_cons_self r l₂),
    ?_, rfl⟩
  rw [hratio, hmax, habs]
  rfl

/-- Counterexample to C5 as stated: on a table holding only the
zero-denominator record (`REP_AREA = 0`, `GIS_AREA = 100`, so both raw values
are present and `|A - B| = 100 > 50`), the retained ratio sample is empty, the
threshold is `NaN`, and the record is not flagged. -/
theorem c5_counterexample :
    recZeroDen.rep_area = some 0 ∧ recZeroDen.gis_area = some 100 ∧
    absDiffGt recZeroDen.gis_area recZeroDen.rep_area
      MAX_ALLOWED_SIZE_DIFF_KM2 = true ∧
    area_invalid_too_large_gis_pids dfZeroDenAlone = [] := by
  have hratio : too_large_gis_ratio recZeroDen = RVal.inf := by
    show floatDiv (some ((0 : ℚ) + 100)) (some (0 : ℚ)) = RVal.inf
    simp only [floatDiv, zero_add]
    rw [if_neg (by norm_num), if_pos (by norm_num)]
  have hsample : statsSample dfZeroDenAlone = [] := by
    simp [statsSample, dfZeroDenAlone, hratio]
  have hmax : maxRatioStats dfZeroDenAlone = none := by
    simp [maxRatioStats, hsample]
  refine ⟨rfl, rfl, ?_, ?_⟩
  · show absDiffGt (some (100 : ℚ)) (some (0 : ℚ)) MAX_ALLOWED_SIZE_DIFF_KM2 =
      true
    simp only [absDiffGt, sub_zero, MAX_ALLOWED_SIZE_DIFF_KM2,
      decide_eq_true_eq]
    rw [abs_of_pos (by norm_num)]
    norm_num
  · have hpred : ∀ x : Record,
        exceedsMax (too_large_gis_ratio x) (maxRatioStats dfZeroDenAlone) =
          false := by
      intro x
      rw [hmax]
      cases too_large_gis_ratio x <;> rfl
    rw [area_invalid_too_large_gis_pids, List.map_eq_nil_iff,
      List.filter_eq_nil_iff]
    intro x hx
    simp [hpred x]

/-- Witness for C5: in `dfZeroDenStats` the two well-behaved rows give a
two-element retained sample, and the zero-denominator row is flagged. -/
theorem c5_witness : some "z5" ∈ area_invalid_too_large_gis_pids dfZeroDenStats := by
  have hr2 : too_large_gis_ratio recEq2 = RVal.val 2 := by
    show floatDiv (some ((2 : ℚ) + 2)) (some (2 : ℚ)) = RVal.val 2
    simp only [floatDiv]
    rw [if_pos (by norm_num)]
    norm_num
  have hr2b : too_large_gis_ratio recEq2b = RVal.val 2 := by
    show floatDiv (some ((2 : ℚ) + 2)) (some (2 : ℚ)) = RVal.val 2
    simp only [floatDiv]
    rw [if_pos (by norm_num)]
    norm_num
  have hrinf : too_large_gis_ratio recZeroDen = RVal.inf := by
    show floatDiv (some ((0 : ℚ) + 100)) (some (0 : ℚ)) = RVal.inf
    simp only [floatDiv, zero_add]
    rw [if_neg (by norm_num), if_pos (by norm_num)]
  have hsample : statsSample dfZeroDenStats = [2, 2] := by
    simp only [statsSample, dfZeroDenStats, List.map_cons, List.map_nil, hr2,
      hr2b, hrinf, List.filterMap_cons, List.filterMap_nil]
    norm_num
  have hlen : 2 ≤ (statsSample dfZeroDenStats).length := by
    rw [hsample]
    norm_num
  exact (c5_zero_denominator_guard dfZeroDenStats [recEq2, recEq2b] []
    recZeroDen 100 rfl rfl rfl (by norm_num) hlen).2.2

/-- The length of a column splits into present values plus missing cells. -/
theorem length_eq_filterMap_add_count_none (l : List (Option String)) :
    l.length = (l.filterMap id).length + l.count none := by
  induction l with
  | nil => rfl
  | cons a t ih =>
      cases a with
      | none =>
          have hct : (none :: t).count none = t.count none + 1 := by
            rw [List.count_cons]
            simp
          have hfm : List.filterMap id (none :: t) = t.filterMap id := by simp
          rw [List.length_cons, hct, hfm, ih]
          omega
      | some x =>
          have hct : (some x :: t).count none = t.count none := by
            rw [List.count_cons]
            simp
          have hfm : List.filterMap id (some x :: t) = x :: t.filterMap id := by
            simp
          rw [List.length_cons, hct, hfm, List.length_cons, ih]
          omega

/-- A column has no repeated cell exactly when its present values are pairwise
distinct and at most one cell is missing. -/
theorem nodup_iff_filterMap_nodup (l : List (Option String)) :
    l.Nodup ↔ (l.filterMap id).Nodup ∧ l.count none ≤ 1 := by
  induction l with
  | nil => simp
  | cons a t ih =>
      cases a with
      | none =>
          have hfm : List.filterMap id (none :: t) = t.filterMap id := by simp
          have hct : (none :: t).count none = t.count none + 1 := by
            rw [List.count_cons]
            simp
          rw [List.nodup_cons, ih, hfm, hct]
          constructor
          · rintro ⟨hna, hnd, _⟩
            have h0 : t.count none = 0 := by
              by_contra h
              exact hna (List.count_pos_iff.mp (by omega))
            exact ⟨hnd, by omega⟩
          · rintro ⟨hnd, hk1⟩
            have h0 : t.count none = 0 := by omega
            refine ⟨fun hmem => ?_, hnd, by omega⟩
            have := List.count_pos_iff.mpr hmem
            omega
      | some x =>
          have hfm : List.filterMap id (some x :: t) = x :: t.filterMap id := by
            simp
          have hct : (some x :: t).count none = t.count none := by
            rw [List.count_cons]
            simp
          rw [List.nodup_cons, ih, hfm, List.nodup_cons, hct]
          have hmm : some x ∈ t ↔ x ∈ t.filterMap id := by
            rw [List.mem_filterMap]
            constructor
            · intro hmem
              exact ⟨some x, hmem, rfl⟩
            · rintro ⟨a, ha, hae⟩
              cases a with
              | none => exact absurd hae (by simp)
              | some y =>
                  have hyx : y = x := by simpa using hae
                  rw [← hyx]
                  exact ha
          constructor
          · rintro ⟨hna, hnd, hk⟩
            exact ⟨⟨fun hx => hna (hmm.mpr hx), hnd⟩, hk⟩
          · rintro ⟨⟨hx, hnd⟩, hk⟩
            exact ⟨fun hmem => hx (hmm.mp hmem), hnd, hk⟩

/-- The `ids.duplicated()` walk yields nothing exactly when the remaining
column is repeat-free and disjoint from the values already seen. -/
theorem duplicatedOccurrences_eq_nil_iff (seen l : List (Option String)) :
    duplicatedOccurrences seen l = [] ↔ l.Nodup ∧ ∀ v ∈ l, v ∉ seen := by
  induction l generalizing seen with
  | nil => simp [duplicatedOccurrences]
  | cons a t ih =>
      rw [duplicatedOccurrences]
      by_cases h : seen.contains a = true
      · rw [if_pos h]
        have ha : a ∈ seen := by simpa using h
        constructor
        · intro habs
          exact absurd habs (by simp)
        · rintro ⟨_, hall⟩
          exact absurd ha (hall a (List.mem_cons_self a t))
      · rw [if_neg h]
        rw [ih (a :: seen)]
        have hanot : a ∉ seen := fun hmem => h (by simpa using hmem)
        constructor
        · rintro ⟨hnd, hall⟩
          refine ⟨List.nodup_cons.mpr ⟨?_, hnd⟩, ?_⟩
          · intro hmem
            exact (hall a hmem) (List.mem_cons_self a seen)
          · intro v hv
            rcases List.mem_cons.mp hv with rfl | hv2
            · exact hanot
            · intro hvs
              exact (hall v hv2) (List.mem_cons_of_mem _ hvs)
        · rintro ⟨hnd, hall⟩
          rw [List.nodup_cons] at hnd
          refine ⟨hnd.2, ?_⟩
          intro v hv hvs
          rcases List.mem_cons.mp hvs with rfl | hvs2
          · exact hnd.1 hv
          · exact (hall v (List.mem_cons_of_mem _ hv)) hvs2

/-- The duplicated-values list of `duplicate_wdpa_pid` is empty exactly when
the `WDPA_PID` column is repeat-free. -/
theorem duplicate_pids_eq_nil_iff (df : WDPA) :
    duplicate_wdpa_pid_pids df = [] ↔ (wdpaPids df).Nodup := by
  rw [duplicate_wdpa_pid_pids, List.dedup_eq_nil, duplicatedOccurrences_eq_nil_iff]
  simp

/-- The `nunique() != index.size` boolean of `duplicate_wdpa_pid` holds
exactly when the present pid values repeat or some pid is missing. -/
theorem duplicate_bool_true_iff (df : WDPA) :
    duplicate_wdpa_pid_bool df = true ↔
      ¬ (((wdpaPids df).filterMap id).Nodup ∧ (wdpaPids df).count none = 0) := by
  have hfact : (wdpaPids df).length =
      ((wdpaPids df).filterMap id).length + (wdpaPids df).count none :=
    length_eq_filterMap_add_count_none _
  have hdf : df.length = (wdpaPids df).length := (List.length_map df _).symm
  rw [duplicate_wdpa_pid_bool, decide_eq_true_eq, hdf, hfact]
  constructor
  · intro hne hand
    obtain ⟨hnd, h0⟩ := hand
    apply hne
    rw [List.dedup_eq_self.mpr hnd, h0]
    omega
  · intro hnand heq
    have hle : ((wdpaPids df).filterMap id).dedup.length ≤
        ((wdpaPids df).filterMap id).length :=
      (List.dedup_sublist _).length_le
    have h0 : (wdpaPids df).count none = 0 := by omega
    have hlen : ((wdpaPids df).filterMap id).dedup.length =
        ((wdpaPids df).filterMap id).length := by omega
    have hnd : ((wdpaPids df).filterMap id).Nodup := by
      have heq2 := (List.dedup_sublist ((wdpaPids df).filterMap id)).eq_of_length hlen
      rw [← heq2]
      exact List.nodup_dedup _
    exact hnand ⟨hnd, h0⟩

/-- C2 (amended): for every factory check the boolean mode is defined as
`len(invalid_wdpa_pid) > 0` and so agrees with nonemptiness of the offending
set (for the country-code check, whenever it evaluates at all); for
`duplicate_wdpa_pid`, whose boolean mode compares the count of distinct
non-missing `WDPA_PID` values with the row count, the two modes disagree
exactly when the column holds exactly one missing `WDPA_PID` while its
non-missing values are pairwise distinct — in particular they agree whenever
no `WDPA_PID` is missing. -/
theorem c2_bool_iff_nonempty :
    (∀ (df : WDPA) (field : Record → Option String)
        (vals : List (Option String)) (cf : Option (Record → Option String))
        (crit : List (Option String)),
      invalid_value_in_field_bool df field vals cf crit = true ↔
        invalid_value_in_field_pids df field vals cf crit ≠ []) ∧
    (∀ (df : WDPA) (cfield : Record → Option String),
      forbidden_character_bool df cfield = true ↔
        forbidden_character_pids df cfield ≠ []) ∧
    (∀ df : WDPA,
      area_invalid_marine_bool df = true ↔ area_invalid_marine_pids df ≠ []) ∧
    (∀ df : WDPA,
      area_invalid_too_large_gis_bool df = true ↔
        area_invalid_too_large_gis_pids df ≠ []) ∧
    (∀ (df : WDPA) (field : Record → Option String) (ref : List String)
        (l : List (Option String)),
      invalid_country_codes_pids df field ref = some l →
      (invalid_country_codes_bool df field ref = some true ↔ l ≠ [])) ∧
    (∀ df : WDPA,
      ((duplicate_wdpa_pid_bool df = true ↔ duplicate_wdpa_pid_pids df ≠ []) ↔
        ¬ ((wdpaPids df).count none = 1 ∧
            ((wdpaPids df).filterMap id).Nodup))) ∧
    (∀ df : WDPA, (∀ p ∈ wdpaPids df, Option.isSome p = true) →
      (duplicate_wdpa_pid_bool df = true ↔ duplicate_wdpa_pid_pids df ≠ [])) := by
  have hdup : ∀ df : WDPA,
      ((duplicate_wdpa_pid_bool df = true ↔ duplicate_wdpa_pid_pids df ≠ []) ↔
        ¬ ((wdpaPids df).count none = 1 ∧
            ((wdpaPids df).filterMap id).Nodup)) := by
    intro df
    rw [duplicate_bool_true_iff, Ne, duplicate_pids_eq_nil_iff,
      nodup_iff_filterMap_nodup]
    by_cases hN : ((wdpaPids df).filterMap id).Nodup
    · simp only [hN, true_and, and_true, not_true_eq_false, and_false]
      omega
    · simp [hN]
  refine ⟨?_, ?_, ?_, ?_, ?_, hdup, ?_⟩
  · intro df field vals cf crit
    simp [invalid_value_in_field_bool, List.length_pos]
  · intro df cfield
    simp [forbidden_character_bool, List.length_pos]
  · intro df
    simp [area_invalid_marine_bool, List.length_pos]
  · intro df
    simp [area_invalid_too_large_gis_bool, List.length_pos]
  · intro df field ref l h
    rw [invalid_country_codes_bool, h]
    simp [List.length_pos]
  · intro df h
    rw [hdup df]
    rintro ⟨h1, _⟩
    have hnone : none ∉ wdpaPids df := fun hmem => by
      have := h none hmem
      simp at this
    rw [List.count_eq_zero.mpr hnone] at h1
    omega

/-- Counterexample to C2 as stated: a one-row table whose single `WDPA_PID` is
missing makes `duplicate_wdpa_pid` report `True` (0 distinct non-missing
values against 1 row) while the offending-value set is empty. -/
theorem c2_counterexample :
    duplicate_wdpa_pid_bool dfNullPid = true ∧
    duplicate_wdpa_pid_pids dfNullPid = [] := by
  constructor <;> decide

/-- Witness for C2 on a table without missing identifiers. -/
theorem c2_witness :
    duplicate_wdpa_pid_bool dfDupPid = true ↔
      duplicate_wdpa_pid_pids dfDupPid ≠ [] :=
  c2_bool_iff_nonempty.2.2.2.2.2.2 dfDupPid (by decide)

/-- Counterexample to C3 as stated: on a table with a missing `ISO3` value the
country-code check raises (modelled by `none`) instead of evaluating. -/
theorem c3_counterexample :
    invalid_country_codes_pids dfNullIso3 (fun r => r.iso3) refCodes = none := by
  decide

/-- C3 (amended): every embedded check other than the country-code one is
total on any table, while `invalid_country_codes` raises exactly when some
record's checked code value is missing. -/
theorem c3_country_codes_raise_iff_null (df : WDPA)
    (field : Record → Option String) (ref : List String) :
    invalid_country_codes_pids df field ref = none ↔
      ∃ r ∈ df, field r = none := by
  simp only [invalid_country_codes_pids]
  split_ifs with h
  · simp only [List.all_eq_true] at h
    constructor
    · intro hc
      exact absurd hc (by simp)
    · rintro ⟨r, hr, hnone⟩
      have hs := h r hr
      rw [hnone] at hs
      simp at hs
  · simp only [List.all_eq_true] at h
    push_neg at h
    obtain ⟨r, hr, hns⟩ := h
    constructor
    · intro _
      refine ⟨r, hr, ?_⟩
      cases hfr : field r with
      | none => rfl
      | some s => rw [hfr] at hns; simp at hns
    · intro _
      rfl

/-- Witness for C3 (amended) on the parent-code field: the raised error is
produced exactly by the missing `PARENT_ISO3` cell. -/
theorem c3_witness :
    invalid_country_codes_pids dfNullIso3 (fun r => r.parent_iso3) refCodes =
      none :=
  (c3_country_codes_raise_iff_null dfNullIso3 (fun r => r.parent_iso3)
    refCodes).mpr ⟨recNullIso3, by simp [dfNullIso3], rfl⟩

/-- Counterexample to C4 as stated: running `area_invalid_marine` on a table
changes the table (two derived columns appear on it). -/
theorem c4_counterexample : (area_invalid_marine_run dfPlain).2 ≠ dfPlain := by
  decide

/-- C4 (amended): every embedded check except `area_invalid_marine` returns
the DataFrame exactly as it received it; `area_invalid_marine` writes the two
derived scratch columns onto the shared DataFrame but preserves every schema
field of every row. -/
theorem c4_frame_effects (df : WDPA) :
    (duplicate_wdpa_pid_run df).2 = df ∧
    (∀ (field : Record → Option String) (vals : List (Option String))
        (cf : Option (Record → Option String)) (crit : List (Option String)),
      (invalid_value_in_field_run df field vals cf crit).2 = df) ∧
    (∀ cfield : Record → Option String,
      (forbidden_character_run df cfield).2 = df) ∧
    ((area_invalid_too_large_gis_run df).2 = df) ∧
    (∀ (field : Record → Option String) (ref : List String),
      (invalid_country_codes_run df field ref).2 = df) ∧
    ((area_invalid_marine_run df).2.map Record.dropScratch =
      df.map Record.dropScratch) := by
  refine ⟨rfl, fun _ _ _ _ => rfl, fun _ => rfl, rfl, fun _ _ => rfl, ?_⟩
  show (area_invalid_marine_addcols df).map Record.dropScratch =
    df.map Record.dropScratch
  simp only [area_invalid_marine_addcols, List.map_map]
  rfl

/-- Counterexample to C6 as stated: a record whose `NAME` is present and holds
`<`, but whose `ISO3` (among other fields) is missing, is not reported by
`forbidden_character` on `NAME`, because `dropna()` removes rows with a
missing value in any column, not only in the checked one. -/
theorem c6_counterexample :
    recAngleName.name = some "a<b" ∧ containsForbidden "a<b" = true ∧
    recAngleName.iso3 = none ∧
    forbidden_character_pids dfAngleName (fun r => r.name) = [] := by
  refine ⟨rfl, by decide, rfl, by decide⟩

/-- C6 (amended): `forbidden_character` flags exactly the records that have no
missing value in any column and whose checked value holds one of the six
forbidden characters; a record is excluded as soon as any of its cells is
missing, not only the checked one. -/
theorem c6_forbidden_character (df : WDPA)
    (check_field : Record → Option String) (pid : Option String) :
    (pid ∈ forbidden_character_pids df check_field) ↔
      ∃ r, r ∈ df ∧ r.hasNullCell = false ∧
        (∃ s, check_field r = some s ∧ containsForbidden s = true) ∧
        r.wdpa_pid = pid := by
  simp only [forbidden_character_pids, List.filter_filter]
  rw [mem_filterPids]
  constructor
  · rintro ⟨r, hr, hp, rfl⟩
    rw [Bool.and_eq_true] at hp
    obtain ⟨hm, hn⟩ := hp
    rw [Bool.not_eq_true'] at hn
    cases hc : check_field r with
    | none =>
        rw [hc] at hm
        exact absurd hm (by simp)
    | some s =>
        rw [hc] at hm
        exact ⟨r, hr, hn, ⟨s, hc, hm⟩, rfl⟩
  · rintro ⟨r, hr, h1, ⟨s, hs, hc⟩, rfl⟩
    refine ⟨r, hr, ?_, rfl⟩
    rw [Bool.and_eq_true]
    refine ⟨by rw [hs]; exact hc, ?_⟩
    rw [Bool.not_eq_true']
    exact h1

/-- Witness for C6: the fully populated record with a `*` in its `NAME` is
reported. -/
theorem c6_witness :
    some "w6" ∈ forbidden_character_pids dfFull (fun r => r.name) :=
  (c6_forbidden_character dfFull (fun r => r.name) (some "w6")).mpr
    ⟨recFull, by simp [dfFull], by decide, ⟨"bad*name", rfl, by decide⟩, rfl⟩

/-- Weakening the membership predicate of a filtered pid list keeps every
reported pid reported. -/
theorem mem_pids_mono {df : WDPA} {p q : Record → Bool}
    (h : ∀ r, q r = true → p r = true) {pid : Option String}
    (hq : pid ∈ (df.filter q).map (fun r => r.wdpa_pid)) :
    pid ∈ (df.filter p).map (fun r => r.wdpa_pid) := by
  obtain ⟨r, hr, hqr, rfl⟩ := mem_filterPids.mp hq
  exact mem_filterPids.mpr ⟨r, hr, h r hqr, rfl⟩

/-- C8: the membership rule is antitone in the allowed-value set: enlarging
the allowed set only shrinks the offending set, and a record whose own value
is added to the allowed set leaves (or never enters) the offending rows. -/
theorem c8_membership_antitone (df : WDPA) (field : Record → Option String)
    (cf : Option (Record → Option String)) (crit : List (Option String))
    (sAll sBig : List (Option String)) (r : Record) (v : Option String) :
    ((∀ x ∈ sAll, x ∈ sBig) →
      ∀ pid ∈ invalid_value_in_field_pids df field sBig cf crit,
        pid ∈ invalid_value_in_field_pids df field sAll cf crit) ∧
    (field r = v →
      r ∉ invalid_value_in_field_recs df field (v :: sAll) cf crit) := by
  have hkey : ∀ (s sb : List (Option String)), (∀ x ∈ s, x ∈ sb) →
      ∀ x : Option String, (!sb.contains x) = true → (!s.contains x) = true := by
    intro s sb hsub x hx
    cases hSc : s.contains x with
    | false => rfl
    | true =>
        exfalso
        have hxS : x ∈ s := by simpa using hSc
        have hc2 : sb.contains x = true := by
          simpa using hsub x hxS
        rw [hc2] at hx
        exact absurd hx (by simp)
  constructor
  · intro hsub pid hpid
    rcases cf with _ | cfv
    · exact mem_pids_mono (fun x hx => hkey sAll sBig hsub (field x) hx) hpid
    · rcases crit with _ | ⟨c, cs⟩
      · exact mem_pids_mono (fun x hx => hkey sAll sBig hsub (field x) hx) hpid
      · refine mem_pids_mono (fun x hx => ?_) hpid
        rw [Bool.and_eq_true] at hx ⊢
        exact ⟨hkey sAll sBig hsub (field x) hx.1, hx.2⟩
  · intro hv hmem
    have hcontains : (v :: sAll).contains (field r) = true := by
      rw [hv]
      simp
    rcases cf with _ | cfv
    · have hp := (List.mem_filter.mp hmem).2
      simp only [Bool.not_eq_true'] at hp
      rw [hcontains] at hp
      exact absurd hp (by simp)
    · rcases crit with _ | ⟨c, cs⟩
      · have hp := (List.mem_filter.mp hmem).2
        simp only [Bool.not_eq_true'] at hp
        rw [hcontains] at hp
        exact absurd hp (by simp)
      · have hp := (List.mem_filter.mp hmem).2
        rw [Bool.and_eq_true] at hp
        have hp1 := hp.1
        simp only [Bool.not_eq_true'] at hp1
        rw [hcontains] at hp1
        exact absurd hp1 (by simp)

/-- Witness for C8: enlarging the allowed set `{Y}` to `{X, Y}` loses no
membership obligations, and the `X`-valued record never offends once `X` is
allowed. -/
theorem c8_witness :
    (∀ pid ∈ invalid_value_in_field_pids dfDesigX (fun r => r.desig_type)
        [some "X", some "Y"] none [],
      pid ∈ invalid_value_in_field_pids dfDesigX (fun r => r.desig_type)
        [some "Y"] none []) ∧
    recDesigX ∉ invalid_value_in_field_recs dfDesigX (fun r => r.desig_type)
      (some "X" :: [some "Y"]) none [] := by
  have h := c8_membership_antitone dfDesigX (fun r => r.desig_type) none []
    [some "Y"] [some "X", some "Y"] recDesigX (some "X")
  exact ⟨h.1 (by decide), h.2 rfl⟩

/-- C10: a record whose checked code value holds an empty component (for
example a trailing or doubled `;`) fails `_correct_iso3` against any reference
list without the empty string, and is flagged whenever the country-code check
evaluates. -/
theorem c10_empty_component_flagged (df : WDPA)
    (field : Record → Option String) (ref : List String)
    (href : "" ∉ ref) (r : Record) (s : String) (hmem : r ∈ df)
    (hval : field r = some s) (hempty : [] ∈ splitSemicolon s.toList)
    (l : List (Option String))
    (hres : invalid_country_codes_pids df field ref = some l) :
    correct_iso3 ref s = false ∧ r.wdpa_pid ∈ l := by
  have hnc : ref.contains "" = false := by simpa using href
  have hcorr : correct_iso3 ref s = false := by
    simp only [correct_iso3]
    refine List.all_eq_false.mpr ⟨[], hempty, ?_⟩
    show ¬ (ref.contains (String.mk []) = true)
    rw [show String.mk [] = "" from rfl, hnc]
    simp
  refine ⟨hcorr, ?_⟩
  simp only [invalid_country_codes_pids] at hres
  by_cases hall : (df.all fun r => (field r).isSome) = true
  · rw [if_pos hall] at hres
    have hl := Option.some.inj hres
    rw [← hl]
    refine mem_filterPids.mpr ⟨r, hmem, ?_, rfl⟩
    rw [hval]
    show (!correct_iso3 ref s) = true
    rw [hcorr]
    rfl
  · rw [if_neg hall] at hres
    exact absurd hres (by simp)

/-- Witness for C10: the trailing-separator row `USA;` is flagged against the
reference list `USA, ABNJ`. -/
theorem c10_witness :
    ∃ l, invalid_country_codes_pids dfTrailingSep (fun r => r.iso3)
      ["USA", "ABNJ"] = some l ∧ some "w10" ∈ l := by
  have hres : invalid_country_codes_pids dfTrailingSep (fun r => r.iso3)
      ["USA", "ABNJ"] = some [some "w10"] := by decide
  exact ⟨[some "w10"], hres,
    (c10_empty_component_flagged dfTrailingSep (fun r => r.iso3)
      ["USA", "ABNJ"] (by decide) recTrailingSep "USA;" (by decide) rfl
      (by decide) [some "w10"] hres).2⟩
